import Mathlib

/-!
Shallow embedding of the core of `vertex/q2q.py` (the Q2Q overlay network
protocol), together with theorems checking the natural-language
specification against it.

Python strings are modelled as `List Char`; Python `None` versus a value is
modelled with `Option`; Python dictionaries are modelled as association
lists with unique keys (`dictGet` / `dictSet` / `dictDel` below); raised
exceptions are modelled with `Except` carrying a `PyErr` naming the Python
exception class that escapes the handler.
-/

namespace Vertex

/-- Python strings, modelled as lists of characters. -/
abbrev Str := List Char

/-- Python exception classes that the modelled code can raise.
`keyError` is mapped by the Juice command error tables to the wire error
NotFound or NoSuchUser depending on the command; `verifyError` is
`sslverify.VerifyError`; `valueError` is an unhandled `ValueError` (for
example from tuple unpacking); `badCertificateRequest` is the
`BadCertificateRequest` subclass of `VerifyError`. -/
inductive PyErr where
  | keyError
  | valueError
  | verifyError
  | badCertificateRequest
  deriving DecidableEq, Repr

instance [DecidableEq ε] [DecidableEq α] : DecidableEq (Except ε α)
  | .error x, .error y =>
    if h : x = y then isTrue (by rw [h])
    else isFalse (fun hc => by cases hc; exact h rfl)
  | .error _, .ok _ => isFalse (fun hc => by cases hc)
  | .ok _, .error _ => isFalse (fun hc => by cases hc)
  | .ok x, .ok y =>
    if h : x = y then isTrue (by rw [h])
    else isFalse (fun hc => by cases hc; exact h rfl)

/-! ## Python dictionaries as association lists -/

/-- Lookup in a Python dictionary: `d.get(k)` / `d[k]` (the latter raising
`KeyError` on `none`, encoded at each use site). -/
def dictGet [DecidableEq α] : List (α × β) → α → Option β
  | [], _ => none
  | kv :: rest, k => if kv.1 = k then some kv.2 else dictGet rest k

/-- Removal from a Python dictionary (`del d[k]` / `d.pop(k)`): since real
dictionaries have unique keys, removing every pair with the key is faithful. -/
def dictDel (m : List (α × β)) (k : α) [DecidableEq α] : List (α × β) :=
  m.filter (fun kv => ¬(kv.1 = k))

/-- Assignment into a Python dictionary: `d[k] = v`. -/
def dictSet (m : List (α × β)) (k : α) (v : β) [DecidableEq α] : List (α × β) :=
  dictDel m k ++ [(k, v)]

theorem dictGet_append [DecidableEq α] (l₁ l₂ : List (α × β)) (k : α) :
    dictGet (l₁ ++ l₂) k =
      match dictGet l₁ k with
      | some v => some v
      | none => dictGet l₂ k := by
  induction l₁ with
  | nil => simp [dictGet]
  | cons hd tl ih =>
    by_cases hk : hd.1 = k <;> simp [dictGet, hk, ih]

theorem dictGet_del_self [DecidableEq α] (m : List (α × β)) (k : α) :
    dictGet (dictDel m k) k = none := by
  induction m with
  | nil => rfl
  | cons hd tl ih =>
    by_cases hk : hd.1 = k <;> simp [dictDel, dictGet, hk, List.filter_cons] at * <;>
      simpa [dictDel, dictGet] using ih

theorem dictGet_del_ne [DecidableEq α] (m : List (α × β)) (k k' : α) (h : k' ≠ k) :
    dictGet (dictDel m k) k' = dictGet m k' := by
  induction m with
  | nil => rfl
  | cons hd tl ih =>
    by_cases hk : hd.1 = k
    · have hne : ¬(hd.1 = k') := fun hcontra => h (by rw [← hcontra, hk])
      simp only [dictDel, List.filter_cons, decide_not] at *
      simp [hk, dictGet, hne, ih, Ne.symm h]
    · simp only [dictDel, List.filter_cons, decide_not] at *
      by_cases hk' : hd.1 = k' <;> simp [hk, hk', dictGet, ih, h]

theorem dictGet_set_self [DecidableEq α] (m : List (α × β)) (k : α) (v : β) :
    dictGet (dictSet m k v) k = some v := by
  unfold dictSet
  rw [dictGet_append, dictGet_del_self]
  simp [dictGet]

theorem dictGet_set_ne [DecidableEq α] (m : List (α × β)) (k k' : α) (v : β) (h : k' ≠ k) :
    dictGet (dictSet m k v) k' = dictGet m k' := by
  unfold dictSet
  rw [dictGet_append, dictGet_del_ne m k k' h]
  cases hget : dictGet m k' with
  | some w => simp
  | none => simp [dictGet, Ne.symm h]

/-! ## Addresses (`Q2QAddress`) -/

/-- Split a Python-style string at the FIRST occurrence of `c`, as in
`string.split(c, 1)`: returns the part before the first `c` and, when `c`
occurs, the remainder after it. -/
def splitFirstAt (c : Char) : Str → Str × Option Str
  | [] => ([], none)
  | x :: xs =>
    if x = c then ([], some xs)
    else
      let rest := splitFirstAt c xs
      (x :: rest.1, rest.2)

/-- Python `s.split(c)` (split on every occurrence; an input with no
occurrence yields a one-element list, the empty input yields one empty
part). -/
def pySplitAll (c : Char) : Str → List Str
  | [] => [[]]
  | x :: xs =>
    let rest := pySplitAll c xs
    if x = c then [] :: rest
    else (x :: rest.headI) :: rest.tail

/-- `Q2QAddress(domain, resource=None)`: `resource = none` is Python
`None`; `resource = some []` is the distinct Python empty-string value. -/
structure Q2QAddress where
  domain : Str
  resource : Option Str := none
  deriving DecidableEq, Repr

/-- `Q2QAddress.__str__`: `resource@domain` when `resource` is truthy
(neither `None` nor empty), else just `domain`. -/
def addrToString (a : Q2QAddress) : Str :=
  (match a.resource with
   | some r => if r = [] then [] else r ++ ['@']
   | none => []) ++ a.domain

/-- `Q2QAddress.fromString`: split on the first `@` and reverse the parts,
so `user@domain` parses to domain `domain`, resource `user`, and a string
with no `@` parses to a domain-only address. -/
def Q2QAddress.fromString (string : Str) : Q2QAddress :=
  match splitFirstAt '@' string with
  | (whole, none) => { domain := whole }
  | (before, some after) => { domain := after, resource := some before }

/-- `Q2QAddress.domainAddress`: the same address with only the domain set. -/
def Q2QAddress.domainAddress (a : Q2QAddress) : Q2QAddress :=
  match a.resource with
  | none => a
  | some _ => { domain := a.domain }

/-! ## Certificates and `verifyCertificateAllowed` -/

/-- An X.509 certificate as the verification logic sees it: the issuer and
subject common names, plus the serial (set when signing). -/
structure Cert where
  issuerCN : Str
  subjectCN : Str
  serial : Nat := 0
  deriving DecidableEq, Repr

/-- `Q2QAddress.claimedAsIssuerOf`: the issuer common name of the
certificate equals the textual form of this address. -/
def claimedAsIssuerOf (a : Q2QAddress) (cert : Cert) : Bool :=
  cert.issuerCN = addrToString a

/-- `Q2QAddress.claimedAsSubjectOf`: the subject common name of the
certificate equals the textual form of this address. -/
def claimedAsSubjectOf (a : Q2QAddress) (cert : Cert) : Bool :=
  cert.subjectCN = addrToString a

/-- `Q2Q.verifyCertificateAllowed(ourAddress, theirAddress)`, returning
`true` for success and `false` where the Python raises `VerifyError`.
`authorized` is `self.authorized`; `hostCertificate` is the certificate we
presented (`self.hostCertificate`); `peerCert` is the TLS-verified peer
certificate (`Certificate.peerFromTransport(self.transport)`). -/
def verifyCertificateAllowed (authorized : Bool) (hostCertificate : Cert)
    (peerCert : Cert) (ourAddress theirAddress : Q2QAddress) : Bool :=
  if ¬authorized then
    -- anonymous connections are allowed to not be authorized
    theirAddress.domain = []
  else
    let ourCert := hostCertificate
    let ourClaimedDomain := ourAddress.domainAddress
    let theirClaimedDomain := theirAddress.domainAddress
    -- Sanity check #1: did we pick the right certificate on our end?
    if ¬claimedAsIssuerOf ourClaimedDomain ourCert then false
    else if claimedAsIssuerOf theirClaimedDomain peerCert then
      -- Their domain issued their certificate.
      claimedAsSubjectOf theirAddress peerCert ||
        claimedAsSubjectOf theirClaimedDomain peerCert
    else if claimedAsIssuerOf ourClaimedDomain peerCert then
      -- our domain can spoof anything
      true
    else if claimedAsIssuerOf ourAddress peerCert then
      -- Neither our domain nor their domain signed this.  Did we?
      true
    else false

/-- The success condition of `verifyCertificateAllowed` as the claim states
it: anonymous-and-unauthorized, or authorized with the sanity check and a
flat three-way disjunction over the peer certificate names. -/
def claimVerifyAllowed (authorized : Bool) (hostCertificate : Cert)
    (peerCert : Cert) (ourAddress theirAddress : Q2QAddress) : Bool :=
  (decide (theirAddress.domain = []) && ¬authorized) ||
  (authorized && claimedAsIssuerOf ourAddress.domainAddress hostCertificate &&
    ((claimedAsIssuerOf theirAddress.domainAddress peerCert &&
       (claimedAsSubjectOf theirAddress peerCert ||
        claimedAsSubjectOf theirAddress.domainAddress peerCert)) ||
     claimedAsIssuerOf ourAddress.domainAddress peerCert ||
     claimedAsIssuerOf ourAddress peerCert))

/-- The success condition with the second and third disjuncts guarded the
way the `elif` chain in the source guards them: the branches for our
domain, or our address, being the issuer of the peer certificate are only
reached when their claimed domain is NOT the issuer of the peer
certificate. -/
def amendedVerifyAllowed (authorized : Bool) (hostCertificate : Cert)
    (peerCert : Cert) (ourAddress theirAddress : Q2QAddress) : Bool :=
  (decide (theirAddress.domain = []) && ¬authorized) ||
  (authorized && claimedAsIssuerOf ourAddress.domainAddress hostCertificate &&
    ((claimedAsIssuerOf theirAddress.domainAddress peerCert &&
       (claimedAsSubjectOf theirAddress peerCert ||
        claimedAsSubjectOf theirAddress.domainAddress peerCert)) ||
     (¬claimedAsIssuerOf theirAddress.domainAddress peerCert &&
      claimedAsIssuerOf ourAddress.domainAddress peerCert) ||
     (¬claimedAsIssuerOf theirAddress.domainAddress peerCert &&
      ¬claimedAsIssuerOf ourAddress.domainAddress peerCert &&
      claimedAsIssuerOf ourAddress peerCert)))

/-! ## Theorems for claim C1 -/

/-- Claim C1, counterexample: with an authorized connection between
`a@d` and `b@d`, where the shared domain `d` issued the peer certificate
but the peer certificate subject is `c@d` (neither `b@d` nor `d`), the
claim predicate succeeds through its second disjunct (our domain is the
issuer of the peer certificate) while the code raises `VerifyError`: the
source checks that disjunct only in an `elif` that is skipped because
their domain IS the issuer of the peer certificate. -/
theorem verifyCertificateAllowed_claim_counterexample :
    claimVerifyAllowed true
      { issuerCN := "d".toList, subjectCN := "a@d".toList }
      { issuerCN := "d".toList, subjectCN := "c@d".toList }
      { domain := "d".toList, resource := some "a".toList }
      { domain := "d".toList, resource := some "b".toList } = true ∧
    verifyCertificateAllowed true
      { issuerCN := "d".toList, subjectCN := "a@d".toList }
      { issuerCN := "d".toList, subjectCN := "c@d".toList }
      { domain := "d".toList, resource := some "a".toList }
      { domain := "d".toList, resource := some "b".toList } = false := by
  constructor <;> decide

/-- Claim C1 (corrected): `verifyCertificateAllowed(ourAddr, theirAddr)`
succeeds iff either the connection is unauthorized and `theirAddr` is
anonymous, or the connection is authorized, our domain is the issuer of
the certificate we presented, and one of: their domain issued the peer
certificate with subject `theirAddr` or their domain; their domain is NOT
the issuer and our domain is; or neither domain is the issuer and
`ourAddr` itself is.  The last two cases are amended from the claim: they
apply only when the preceding issuer tests fail, because the source tests
them with `elif`. -/
theorem verifyCertificateAllowed_amended_characterization :
    ∀ (authorized : Bool) (hostCertificate peerCert : Cert)
      (ourAddress theirAddress : Q2QAddress),
      verifyCertificateAllowed authorized hostCertificate peerCert
          ourAddress theirAddress =
        amendedVerifyAllowed authorized hostCertificate peerCert
          ourAddress theirAddress := by
  intro authorized hc pc oa ta
  cases authorized with
  | false => simp [verifyCertificateAllowed, amendedVerifyAllowed]
  | true =>
    simp only [verifyCertificateAllowed, amendedVerifyAllowed]
    by_cases h1 : claimedAsIssuerOf oa.domainAddress hc = true <;>
      by_cases h2 : claimedAsIssuerOf ta.domainAddress pc = true <;>
        by_cases h3 : claimedAsIssuerOf oa.domainAddress pc = true <;>
          by_cases h4 : claimedAsIssuerOf oa pc = true <;>
            simp [h1, h2, h3, h4]

/-! ## Theorems for claim C4 -/

theorem splitFirstAt_of_not_mem (c : Char) (l : Str) (h : c ∉ l) :
    splitFirstAt c l = (l, none) := by
  induction l with
  | nil => rfl
  | cons x xs ih =>
    have hx : ¬(x = c) := fun hcontra => h (hcontra ▸ List.mem_cons_self x xs)
    have hxs : c ∉ xs := fun hmem => h (List.mem_cons_of_mem x hmem)
    simp [splitFirstAt, hx, ih hxs]

theorem splitFirstAt_append_cons (c : Char) (pre post : Str) (h : c ∉ pre) :
    splitFirstAt c (pre ++ c :: post) = (pre, some post) := by
  induction pre with
  | nil => simp [splitFirstAt]
  | cons x xs ih =>
    have hx : ¬(x = c) := fun hcontra => h (hcontra ▸ List.mem_cons_self x xs)
    have hxs : c ∉ xs := fun hmem => h (List.mem_cons_of_mem x hmem)
    simp [splitFirstAt, hx, ih hxs]

/-- A well-formed address in the sense forced by the counterexamples: the
domain contains no `@`, and the resource, when present, is non-empty and
contains no `@`. -/
def wfAddress (a : Q2QAddress) : Bool :=
  ¬('@' ∈ a.domain) &&
    (match a.resource with
     | none => true
     | some r => ¬(r = []) && ¬('@' ∈ r))

/-- Claim C4, counterexample: the address with domain `x@y` and no
resource does not survive the round trip (`fromString(str(a))` yields
resource `x`, domain `y`), and its string form contains `@` although its
resource is absent; both of the first two conjuncts of the claim fail on
it. -/
theorem address_roundTrip_counterexample :
    Q2QAddress.fromString (addrToString { domain := "x@y".toList }) ≠
        { domain := "x@y".toList } ∧
    '@' ∈ addrToString { domain := "x@y".toList } := by
  constructor <;> decide

/-- Claim C4 (corrected): for addresses whose domain contains no `@` and
whose resource, if present, is non-empty and free of `@`,
`fromString(str(a)) = a`; for addresses whose domain contains no `@` the
string form contains `@` iff the resource is present and non-empty; and
parsing splits its input at the first `@` (everything before the first
`@` becomes the resource, everything after it the domain).  The
well-formedness hypotheses are amendments forced by addresses such as
domain `x@y` with no resource. -/
theorem address_roundTrip_amended :
    (∀ a : Q2QAddress, wfAddress a = true →
       Q2QAddress.fromString (addrToString a) = a) ∧
    (∀ a : Q2QAddress, ¬('@' ∈ a.domain) →
       ('@' ∈ addrToString a ↔ ∃ r, a.resource = some r ∧ r ≠ [])) ∧
    (∀ pre post : Str, ¬('@' ∈ pre) →
       Q2QAddress.fromString (pre ++ '@' :: post) =
         { domain := post, resource := some pre }) := by
  refine ⟨?_, ?_, ?_⟩
  · intro a hwf
    cases a with
    | mk domain resource =>
      cases resource with
      | none =>
        simp only [wfAddress, Bool.and_eq_true, decide_eq_true_eq] at hwf
        simp [addrToString, Q2QAddress.fromString,
          splitFirstAt_of_not_mem '@' domain (by simpa using hwf.1)]
      | some r =>
        simp only [wfAddress, Bool.and_eq_true, decide_eq_true_eq] at hwf
        have hr := hwf.2.1
        have hrat := hwf.2.2
        have : (if r = [] then ([] : Str) else r ++ ['@']) ++ domain =
            r ++ '@' :: domain := by
          simp [if_neg (by simpa using hr)]
        simp [addrToString, Q2QAddress.fromString, this,
          splitFirstAt_append_cons '@' r domain (by simpa using hrat)]
  · intro a hdom
    cases a with
    | mk domain resource =>
      cases resource with
      | none => simp [addrToString, hdom]
      | some r =>
        by_cases hr : r = []
        · simp [addrToString, hr, hdom]
        · simp [addrToString, hr, hdom, List.mem_append]
  · intro pre post hpre
    simp [Q2QAddress.fromString, splitFirstAt_append_cons '@' pre post hpre]

/-- Witness for C4: a concrete well-formed address round-trips, via the
amended theorem. -/
theorem address_roundTrip_witness :
    wfAddress { domain := "divmod.com".toList,
                resource := some "glyph".toList } = true ∧
    Q2QAddress.fromString (addrToString
        { domain := "divmod.com".toList, resource := some "glyph".toList }) =
      { domain := "divmod.com".toList, resource := some "glyph".toList } :=
  ⟨by decide,
   address_roundTrip_amended.1
     { domain := "divmod.com".toList, resource := some "glyph".toList }
     (by decide)⟩

/-! ## `_endeferify` (claim C2)

Each function/args/kwargs tuple in the Python is modelled by the outcome
of calling it: `Except ε α`, success with a result or failure with a
reason (the `Failure` handed to the errback chain). -/

/-- The ways `_endeferify` can fail. -/
inductive DialFailure (ε : Type u) where
  | noAttemptsMade
  | attemptsFailed (failureChain : List ε)
  deriving DecidableEq, Repr

/-- The recursion of `_endeferify` once `failureChain` exists: take the
next attempt; on `StopIteration` fail with `AttemptsFailed(failureChain)`;
on success return it; on failure append to the chain and recurse. -/
def endeferifyLoop : List (Except ε α) → List ε → Except (DialFailure ε) α
  | [], failureChain => .error (.attemptsFailed failureChain)
  | d :: stuff, failureChain =>
    match d with
    | .ok v => .ok v
    | .error f => endeferifyLoop stuff (failureChain ++ [f])

/-- `_endeferify(funcsAndArgs)`: empty input fails immediately with
`NoAttemptsMade`; otherwise the attempts run in order with an initially
empty failure chain. -/
def _endeferify (funcsAndArgs : List (Except ε α)) : Except (DialFailure ε) α :=
  if funcsAndArgs.length = 0 then .error .noAttemptsMade
  else endeferifyLoop funcsAndArgs []

theorem endeferifyLoop_append_errors (errs : List ε) :
    ∀ (tail : List (Except ε α)) (acc : List ε),
      endeferifyLoop (errs.map .error ++ tail) acc =
        endeferifyLoop tail (acc ++ errs) := by
  induction errs with
  | nil => intro tail acc; simp
  | cons e rest ih =>
    intro tail acc
    have hstep : endeferifyLoop ((Except.error e) :: (rest.map .error ++ tail)) acc =
        endeferifyLoop (rest.map .error ++ tail) (acc ++ [e]) := rfl
    simp only [List.map_cons, List.cons_append, hstep, ih]
    simp

/-! ## Theorems for claim C2 -/

/-- Claim C2 (confirmed): `_endeferify` yields the first successful
attempt after accumulating the failures of the earlier ones; when every
attempt fails it fails with `AttemptsFailed` carrying the failures in
order; and on an empty input it fails with `NoAttemptsMade`. -/
theorem endeferify_first_success :
    (∀ (errs : List ε) (v : α) (rest : List (Except ε α)),
       _endeferify (errs.map .error ++ .ok v :: rest) = .ok v) ∧
    (∀ errs : List ε, errs ≠ [] →
       _endeferify (errs.map .error : List (Except ε α)) =
         .error (.attemptsFailed errs)) ∧
    _endeferify ([] : List (Except ε α)) = .error .noAttemptsMade := by
  refine ⟨?_, ?_, rfl⟩
  · intro errs v rest
    have hne : (errs.map (.error : ε → Except ε α) ++ .ok v :: rest).length ≠ 0 := by
      simp
    simp only [_endeferify, if_neg hne, endeferifyLoop_append_errors,
      endeferifyLoop]
  · intro errs hne
    have hlen : (errs.map (.error : ε → Except ε α)).length ≠ 0 := by
      simpa using hne
    have := endeferifyLoop_append_errors (α := α) errs [] []
    simp only [List.append_nil] at this
    simp only [_endeferify, if_neg hlen, this, endeferifyLoop,
      List.nil_append]

/-- Witness for C2: two failures then a success yields the success; three
failures yield `AttemptsFailed` with the reasons in order. -/
theorem endeferify_first_success_witness :
    _endeferify ([.error 10, .error 11, .ok 42, .error 12] :
        List (Except Nat Nat)) = .ok 42 ∧
    ([10, 11, 12] : List Nat) ≠ [] ∧
    _endeferify (([10, 11, 12] : List Nat).map .error : List (Except Nat Nat)) =
      .error (.attemptsFailed [10, 11, 12]) :=
  ⟨endeferify_first_success.1 [10, 11] 42 [.error 12],
   by decide,
   endeferify_first_success.2.1 [10, 11, 12] (by decide)⟩

/-! ## Connection methods and the relay filter (claim C3) -/

/-- The closed tagged union of connection methods advertised in INBOUND
replies: `VirtualMethod`, `TCPMethod`, `PTCPMethod`, `RPTCPMethod`, and
`UnknownMethod` (which preserves the unparsed string). -/
inductive Method where
  | virtual
  | tcp (host : Str) (port : Nat)
  | ptcp (host : Str) (port : Nat)
  | rptcp (host : Str) (port : Nat)
  | unknown (string : Str)
  deriving DecidableEq, Repr

/-- The `relayable` class attribute of each method class: `VirtualMethod`
sets `relayable = False`; `TCPMethod` (and its subclasses `PTCPMethod`
and `RPTCPMethod`) and `UnknownMethod` set `relayable = True`. -/
def Method.relayable : Method → Bool
  | .virtual => false
  | .tcp _ _ => true
  | .ptcp _ _ => true
  | .rptcp _ _ => true
  | .unknown _ => true

/-- The set of relayable methods as the claim states it: only TCP, PTCP
and RPTCP. -/
def claimRelayable : Method → Bool
  | .tcp _ _ => true
  | .ptcp _ _ => true
  | .rptcp _ _ => true
  | _ => false

/-- One entry of the `listeners` list in an INBOUND response. -/
structure ListenerInfo where
  id : Str
  certificate : Option Cert := none
  methods : List Method
  expires : Nat := 0
  description : Str := []
  deriving DecidableEq, Repr

/-- `Q2Q._massageClientInboundResponse(inboundResponse, listener, result)`:
for each relayed listener entry, keep only the relayable methods; if any
survive, overwrite the certificate with the TLS peer certificate of the
listening client connection and append the entry to `result`; otherwise
drop the entry. -/
def _massageClientInboundResponse (irl : List ListenerInfo)
    (listenerPeerCert : Cert) (result : List ListenerInfo) :
    List ListenerInfo :=
  irl.foldl
    (fun res listenerInfo =>
      let filtered := listenerInfo.methods.filter Method.relayable
      if filtered ≠ [] then
        res ++ [{ listenerInfo with
                  methods := filtered,
                  certificate := some listenerPeerCert }]
      else res)
    result

/-- The relay massage as the claim describes it, differing only in which
methods count as relayable. -/
def claimMassageClientInboundResponse (irl : List ListenerInfo)
    (listenerPeerCert : Cert) (result : List ListenerInfo) :
    List ListenerInfo :=
  irl.foldl
    (fun res listenerInfo =>
      let filtered := listenerInfo.methods.filter claimRelayable
      if filtered ≠ [] then
        res ++ [{ listenerInfo with
                  methods := filtered,
                  certificate := some listenerPeerCert }]
      else res)
    result

/-! ## Theorems for claim C3 -/

/-- Claim C3, counterexample: a relayed entry whose only method is an
unrecognized method string survives the filter in the code, because
`UnknownMethod.relayable` is `True`; under the claim (only TCP, PTCP and
RPTCP relayable) the entry would be left with no methods and dropped. -/
theorem massageClientInboundResponse_claim_counterexample :
    claimMassageClientInboundResponse
        [{ id := "r1".toList, methods := [.unknown "gin@1.2.3.4:7".toList] }]
        { issuerCN := "d".toList, subjectCN := "x@d".toList } [] = [] ∧
    _massageClientInboundResponse
        [{ id := "r1".toList, methods := [.unknown "gin@1.2.3.4:7".toList] }]
        { issuerCN := "d".toList, subjectCN := "x@d".toList } [] =
      [{ id := "r1".toList,
         certificate := some { issuerCN := "d".toList,
                               subjectCN := "x@d".toList },
         methods := [.unknown "gin@1.2.3.4:7".toList] }] := by
  constructor <;> decide

/-- Claim C3 (corrected): serving INBOUND, every relayed listener entry
keeps exactly its relayable methods — where VirtualMethod is the only
non-relayable method; TCP, PTCP, RPTCP and also unknown methods are
relayable, amending the claim — an entry with no surviving method is
dropped, and every surviving entry has its certificate overwritten with
the TLS peer certificate of the listening client connection. -/
theorem massageClientInboundResponse_amended :
    ∀ (irl : List ListenerInfo) (listenerPeerCert : Cert)
      (result : List ListenerInfo),
      _massageClientInboundResponse irl listenerPeerCert result =
        result ++
          (irl.filter
              (fun li => (li.methods.filter Method.relayable) ≠ [])).map
            (fun li =>
              { li with
                methods := li.methods.filter Method.relayable,
                certificate := some listenerPeerCert }) := by
  intro irl listenerPeerCert result
  induction irl generalizing result with
  | nil => simp [_massageClientInboundResponse]
  | cons hd tl ih =>
    have hstep : _massageClientInboundResponse (hd :: tl) listenerPeerCert result =
        _massageClientInboundResponse tl listenerPeerCert
          (if (hd.methods.filter Method.relayable) ≠ [] then
            result ++ [{ hd with
                         methods := hd.methods.filter Method.relayable,
                         certificate := some listenerPeerCert }]
           else result) := rfl
    rw [hstep, List.filter_cons]
    by_cases hkeep : (hd.methods.filter Method.relayable) ≠ []
    · rw [if_pos hkeep, ih, if_pos (by simpa using hkeep)]
      simp
    · rw [if_neg hkeep, ih, if_neg (by simpa using hkeep)]

/-! ## Virtual-channel registry on one overlay connection (claim C5)

`Q2Q.connections` maps channel ids to live `VirtualTransport` objects
(identified here by numeric tokens).  Exactly two places mutate the map:
`VirtualTransport.__init__` stores `self` under its id, and
`VirtualTransport.connectionLost` deletes the entry.  `connectionLost` is
reached from an incoming CLOSE frame (`juice_CLOSE`), from
`loseConnection`, and from loss of the owning connection
(`Q2Q.connectionLost`). -/

/-- The `connections` dictionary of one `Q2Q` protocol instance. -/
abbrev ConnMap := List (Str × Nat)

/-- `VirtualTransport.__init__`: `self.q2q.connections[self.id] = self`. -/
def virtualTransportInit (connections : ConnMap) (id : Str) (vt : Nat) :
    ConnMap :=
  dictSet connections id vt

/-- `VirtualTransport.connectionLost`: `del self.q2q.connections[self.id]`. -/
def virtualTransportConnectionLost (connections : ConnMap) (id : Str) :
    ConnMap :=
  dictDel connections id

/-- The events that touch the `connections` map of one connection over
its lifetime. -/
inductive VTEvent where
  | create (id : Str) (vt : Nat)
  | lost (id : Str)
  deriving DecidableEq, Repr

/-- Apply one event to the `connections` map. -/
def applyVTEvent (connections : ConnMap) : VTEvent → ConnMap
  | .create id vt => virtualTransportInit connections id vt
  | .lost id => virtualTransportConnectionLost connections id

/-- Run a history of events from a starting map (the map is `{}` at
`connectionMade`). -/
def runVTEvents (connections : ConnMap) (events : List VTEvent) : ConnMap :=
  events.foldl applyVTEvent connections

/-- Does an event touch the entry of a given channel id? -/
def VTEvent.touches : VTEvent → Str → Bool
  | .create i _, id => i = id
  | .lost i, id => i = id

/-- The last event of the history that touches the given id, if any.  A
transport `vt` is live under id `id` exactly when this is
`create id vt`; it has been torn down when this is `lost id`. -/
def lastTouch (events : List VTEvent) (id : Str) : Option VTEvent :=
  events.reverse.find? (fun e => e.touches id)

theorem runVTEvents_append (m : ConnMap) (es : List VTEvent) (e : VTEvent) :
    runVTEvents m (es ++ [e]) = applyVTEvent (runVTEvents m es) e := by
  simp [runVTEvents, List.foldl_append]

/-! ## Theorems for claim C5 -/

/-- Claim C5 (confirmed): starting from any state of the `connections`
map, a virtual transport that is live — its creation is the last event
touching its id — is exactly the entry under its id; and once
`connectionLost` has run for that id (and nothing re-created it), the
entry is absent. -/
theorem virtualTransport_connections_invariant :
    ∀ (events : List VTEvent) (m : ConnMap) (id : Str) (vt : Nat),
      (lastTouch events id = some (.create id vt) →
        dictGet (runVTEvents m events) id = some vt) ∧
      (lastTouch events id = some (.lost id) →
        dictGet (runVTEvents m events) id = none) := by
  intro events
  induction events using List.reverseRecOn with
  | nil =>
    intro m id vt
    constructor <;> intro h <;> simp [lastTouch] at h
  | append_singleton es e ih =>
    intro m id vt
    rw [runVTEvents_append]
    have hlast : lastTouch (es ++ [e]) id =
        if e.touches id then some e else lastTouch es id := by
      simp only [lastTouch, List.reverse_append, List.reverse_singleton,
        List.singleton_append, List.find?]
      cases hcond : e.touches id <;> simp [hcond]
    by_cases htouch : e.touches id = true
    · rw [hlast, if_pos htouch]
      constructor <;> intro h <;> injection h with h <;> subst h <;>
        simp [applyVTEvent, virtualTransportInit,
          virtualTransportConnectionLost, dictGet_set_self, dictGet_del_self]
    · rw [hlast, if_neg (by simpa using htouch)]
      have hpreserve : dictGet (applyVTEvent (runVTEvents m es) e) id =
          dictGet (runVTEvents m es) id := by
        cases e with
        | create i v =>
          have : ¬(id = i) := by
            simpa [VTEvent.touches, eq_comm] using htouch
          simp [applyVTEvent, virtualTransportInit, dictGet_set_ne _ _ _ _ this]
        | lost i =>
          have : ¬(id = i) := by
            simpa [VTEvent.touches, eq_comm] using htouch
          simp [applyVTEvent, virtualTransportConnectionLost,
            dictGet_del_ne _ _ _ this]
      rw [hpreserve]
      exact ih m id vt

/-- Witness for C5: in the concrete history create a, create b, close b,
channel `a` is live and mapped to its transport, and the entry for the
closed channel `b` is gone. -/
theorem virtualTransport_connections_invariant_witness :
    dictGet (runVTEvents []
        [.create "a->b:1".toList 1, .create "a->b:2".toList 2,
         .lost "a->b:2".toList]) "a->b:1".toList = some 1 ∧
    dictGet (runVTEvents []
        [.create "a->b:1".toList 1, .create "a->b:2".toList 2,
         .lost "a->b:2".toList]) "a->b:2".toList = none :=
  ⟨(virtualTransport_connections_invariant
      [.create "a->b:1".toList 1, .create "a->b:2".toList 2,
       .lost "a->b:2".toList] [] "a->b:1".toList 1).1 (by decide),
   (virtualTransport_connections_invariant
      [.create "a->b:1".toList 1, .create "a->b:2".toList 2,
       .lost "a->b:2".toList] [] "a->b:2".toList 0).2 (by decide)⟩

/-! ## Listener registry and connection loss (claims C6 and C10)

`Q2QService.listeningClients` maps `(address, protocolName)` keys to lists
of `(connection, peerCert, description)` values; the connection object in
each value is modelled by a numeric token.  `command_LISTEN` appends to
this registry and to the per-connection `listeningClient` list in
lockstep; `Q2Q.connectionLost` walks `listeningClient` and removes each
contributed value with Python `list.remove` (first occurrence). -/

/-- A key of the service-wide listener registry: `(From, protocolName)`. -/
abbrev ListenKey := Q2QAddress × Str

/-- A value of the listener registry: `(self, theirCert, description)`
with the connection object `self` as a token. -/
structure ListenEntry where
  owner : Nat
  cert : Cert
  desc : Str
  deriving DecidableEq, Repr

/-- The registry `Q2QService.listeningClients`, as a total map from keys
to (possibly empty) lists, matching `setdefault(key, [])`. -/
abbrev ListenRegistry := ListenKey → List ListenEntry

/-- Python `list.remove(x)`: drop the first occurrence of `x`.  (Python
raises `ValueError` when `x` is absent; `connectionLost` only removes
values it previously appended, so the absent case is unreachable there.) -/
def pyListRemove [DecidableEq β] (x : β) : List β → List β
  | [] => []
  | y :: ys => if y = x then ys else y :: pyListRemove x ys

/-- `try/except` around a call, with Twisted error handling: the outcome,
success or failure, is swallowed (`log.err`) and execution continues. -/
def safely : Except Str Unit → Unit
  | .ok _ => ()
  | .error _ => ()

/-- The per-connection state that `Q2Q.connectionLost` consumes. -/
structure Q2QConnState where
  token : Nat
  listeningClient : List (ListenKey × ListenEntry)
  connections : ConnMap
  connectionObservers : List Nat

/-- One step of the cleanup loop:
`self.service.listeningClients[key].remove(value)`. -/
def listeningClientRemoveStep (reg : ListenRegistry)
    (kv : ListenKey × ListenEntry) : ListenRegistry :=
  fun k => if k = kv.1 then pyListRemove kv.2 (reg k) else reg k

/-- The loop `for xport in self.connections.values():
safely(xport.connectionLost, reason)`: every channel is told
`connectionLost(reason)`; `safely` isolates a failure of one channel from
the others, so the loop continues regardless of each outcome. -/
def notifyTransports (behavior : Nat → Str → Except Str Unit) (reason : Str) :
    ConnMap → List (Nat × Str)
  | [] => []
  | kv :: rest =>
    let _ := safely (behavior kv.2 reason)
    (kv.2, reason) :: notifyTransports behavior reason rest

/-- The loop `for observer in self.connectionObservers: safely(observer)`:
each observer is invoked once, failures isolated. -/
def notifyObservers (behavior : Nat → Except Str Unit) :
    List Nat → List Nat
  | [] => []
  | ob :: rest =>
    let _ := safely (behavior ob)
    ob :: notifyObservers behavior rest

/-- `Q2Q.connectionLost(reason)`: remove every listener-registry value
this connection contributed, tell every virtual channel
`connectionLost(reason)`, and invoke every observer.  Returns the
post-cleanup registry, the channel notifications delivered, and the
observers invoked. -/
def q2qConnectionLost (reg : ListenRegistry) (c : Q2QConnState) (reason : Str)
    (chanBehavior : Nat → Str → Except Str Unit)
    (obsBehavior : Nat → Except Str Unit) :
    ListenRegistry × List (Nat × Str) × List Nat :=
  let reg2 := c.listeningClient.foldl listeningClientRemoveStep reg
  (reg2,
   notifyTransports chanBehavior reason c.connections,
   notifyObservers obsBehavior c.connectionObservers)

theorem filter_pyListRemove [DecidableEq β] (p : β → Bool) (x : β)
    (hx : p x = true) :
    ∀ l : List β, (pyListRemove x l).filter p = pyListRemove x (l.filter p) := by
  intro l
  induction l with
  | nil => rfl
  | cons y ys ih =>
    by_cases hy : y = x
    · subst hy
      simp [pyListRemove, List.filter_cons, hx]
    · by_cases hp : p y = true <;>
        simp [pyListRemove, List.filter_cons, hy, hp, ih]

theorem notifyTransports_eq (behavior : Nat → Str → Except Str Unit)
    (reason : Str) :
    ∀ conns : ConnMap,
      notifyTransports behavior reason conns =
        conns.map (fun kv => (kv.2, reason)) := by
  intro conns
  induction conns with
  | nil => rfl
  | cons kv rest ih => simp [notifyTransports, ih]

theorem notifyObservers_eq (behavior : Nat → Except Str Unit) :
    ∀ obs : List Nat, notifyObservers behavior obs = obs := by
  intro obs
  induction obs with
  | nil => rfl
  | cons ob rest ih => simp [notifyObservers, ih]

theorem removeContributions (cid : Nat) :
    ∀ (lc : List (ListenKey × ListenEntry)) (reg : ListenRegistry),
      (∀ k, (reg k).filter (fun v => v.owner = cid) =
        (lc.filter (fun kv => kv.1 = k)).map (fun kv => kv.2)) →
      ∀ k, ((lc.foldl listeningClientRemoveStep reg) k).filter
          (fun v => v.owner = cid) = [] := by
  intro lc
  induction lc with
  | nil =>
    intro reg h k
    simpa using h k
  | cons hd tl ih =>
    intro reg h k
    apply ih
    intro k'
    have hhd := h hd.1
    rw [List.filter_cons, if_pos (by simp)] at hhd
    simp only [List.map_cons] at hhd
    have howner : hd.2.owner = cid := by
      have hmem : hd.2 ∈ (reg hd.1).filter (fun v => v.owner = cid) := by
        rw [hhd]; exact List.mem_cons_self _ _
      simpa using (List.mem_filter.mp hmem).2
    by_cases hk : k' = hd.1
    · subst hk
      simp only [listeningClientRemoveStep]
      rw [if_pos trivial,
        filter_pyListRemove (fun v => decide (v.owner = cid)) hd.2
          (by simp [howner]), hhd]
      simp [pyListRemove]
    · simp only [listeningClientRemoveStep, if_neg hk]
      rw [h k', List.filter_cons,
        if_neg (by simpa using fun hcontra => hk (hcontra.symm))]

/-! ## Theorems for claim C6 -/

/-- Claim C6 (confirmed): when an overlay connection is lost, provided the
registry entries owned by this connection are exactly (and in order) the
ones recorded in its `listeningClient` list — the invariant `LISTEN`
maintains by appending to both in lockstep — then after cleanup no
registry list refers to the dead connection; every virtual channel in its
`connections` map is notified with the loss reason; and every registered
observer is invoked exactly once; both notification loops are independent
of whether the individual calls fail, since `safely` isolates failures. -/
theorem q2q_connectionLost_cleanup :
    ∀ (reg : ListenRegistry) (c : Q2QConnState) (reason : Str)
      (chanBehavior : Nat → Str → Except Str Unit)
      (obsBehavior : Nat → Except Str Unit),
      (∀ k, (reg k).filter (fun v => v.owner = c.token) =
        (c.listeningClient.filter (fun kv => kv.1 = k)).map (fun kv => kv.2)) →
      (∀ k, (((q2qConnectionLost reg c reason chanBehavior obsBehavior).1) k).filter
          (fun v => v.owner = c.token) = []) ∧
      (q2qConnectionLost reg c reason chanBehavior obsBehavior).2.1 =
        c.connections.map (fun kv => (kv.2, reason)) ∧
      (q2qConnectionLost reg c reason chanBehavior obsBehavior).2.2 =
        c.connectionObservers := by
  intro reg c reason chanBehavior obsBehavior h
  refine ⟨?_, ?_, ?_⟩
  · exact removeContributions c.token c.listeningClient reg h
  · exact notifyTransports_eq chanBehavior reason c.connections
  · exact notifyObservers_eq obsBehavior c.connectionObservers

/-- Concrete data for the C6 witness: one contributed registry value
behind a foreign one, one live channel, one observer, and failing channel
and observer callbacks (exercising the isolation). -/
def witnessKeyC6 : ListenKey :=
  ({ domain := "divmod.com".toList, resource := some "u".toList },
   "echo".toList)

def witnessEntryC6 : ListenEntry :=
  { owner := 7,
    cert := { issuerCN := "divmod.com".toList,
              subjectCN := "u@divmod.com".toList },
    desc := "at lab".toList }

def witnessOtherEntryC6 : ListenEntry :=
  { owner := 8,
    cert := { issuerCN := "divmod.com".toList,
              subjectCN := "w@divmod.com".toList },
    desc := "other".toList }

def witnessRegC6 : ListenRegistry :=
  fun k => if k = witnessKeyC6 then [witnessOtherEntryC6, witnessEntryC6] else []

def witnessConnC6 : Q2QConnState :=
  { token := 7,
    listeningClient := [(witnessKeyC6, witnessEntryC6)],
    connections := [("a->b:1".toList, 3)],
    connectionObservers := [5] }

/-- Witness for C6: on the concrete state, cleanup leaves no entry owned
by the dead connection at the (only populated) key, while the channel and
the observer are both notified although their callbacks fail. -/
theorem q2q_connectionLost_cleanup_witness :
    (((q2qConnectionLost witnessRegC6 witnessConnC6 "gone".toList
        (fun _ _ => .error "boom".toList)
        (fun _ => .error "boom".toList)).1) witnessKeyC6).filter
      (fun v => v.owner = 7) = [] ∧
    (q2qConnectionLost witnessRegC6 witnessConnC6 "gone".toList
        (fun _ _ => .error "boom".toList)
        (fun _ => .error "boom".toList)).2.1 = [(3, "gone".toList)] ∧
    (q2qConnectionLost witnessRegC6 witnessConnC6 "gone".toList
        (fun _ _ => .error "boom".toList)
        (fun _ => .error "boom".toList)).2.2 = [5] := by
  have h : ∀ k, (witnessRegC6 k).filter
      (fun v => v.owner = witnessConnC6.token) =
      (witnessConnC6.listeningClient.filter
        (fun kv => kv.1 = k)).map (fun kv => kv.2) := by
    intro k
    by_cases hk : k = witnessKeyC6
    · subst hk; decide
    · simp [witnessRegC6, witnessConnC6, hk, Ne.symm hk]
  have T := q2q_connectionLost_cleanup witnessRegC6 witnessConnC6
    "gone".toList (fun _ _ => .error "boom".toList)
    (fun _ => .error "boom".toList) h
  exact ⟨T.1 witnessKeyC6, T.2.1.trans (by decide), T.2.2.trans (by decide)⟩

/-! ## `command_LISTEN` (claim C10) -/

/-- Python `protocolName.startswith('.')`. -/
def startsWithDot : Str → Bool
  | [] => false
  | c :: _ => c = '.'

/-- `self.service.listeningClients.setdefault(key, []).append(value)`. -/
def regSetdefaultAppend (reg : ListenRegistry) (key : ListenKey)
    (value : ListenEntry) : ListenRegistry :=
  fun k => if k = key then reg k ++ [value] else reg k

/-- The `for protocolName in protocols` loop of `command_LISTEN`: names
beginning with a dot raise `VerifyError` on the spot, leaving the
registrations made so far in place; every other name is appended to the
per-connection `listeningClient` list and to the service registry. -/
def listenLoop (From : Q2QAddress) (value : ListenEntry)
    (reg : ListenRegistry) (lc : List (ListenKey × ListenEntry)) :
    List Str → (ListenRegistry × List (ListenKey × ListenEntry)) × Except PyErr Unit
  | [] => ((reg, lc), .ok ())
  | protocolName :: rest =>
    if startsWithDot protocolName then ((reg, lc), .error .verifyError)
    else
      listenLoop From value
        (regSetdefaultAppend reg (From, protocolName) value)
        (lc ++ [((From, protocolName), value)]) rest

/-- `Q2Q.command_LISTEN(protocols, From, description)`: verify the
certificate for `(From, From)` (fatal `VerifyError` on failure, with no
state change), then register each protocol in order, rejecting names that
start with a dot.  Returns the final registry, the final
`listeningClient` list, and the outcome. -/
def command_LISTEN (authorized : Bool) (hostCertificate peerCert : Cert)
    (reg : ListenRegistry) (lc : List (ListenKey × ListenEntry)) (token : Nat)
    (protocols : List Str) (From : Q2QAddress) (description : Str) :
    (ListenRegistry × List (ListenKey × ListenEntry)) × Except PyErr Unit :=
  if ¬verifyCertificateAllowed authorized hostCertificate peerCert From From then
    ((reg, lc), .error .verifyError)
  else
    listenLoop From
      { owner := token, cert := peerCert, desc := description } reg lc protocols

theorem regSetdefaultAppend_mem_mono (reg : ListenRegistry) (key : ListenKey)
    (value x : ListenEntry) (k : ListenKey) (hx : x ∈ reg k) :
    x ∈ regSetdefaultAppend reg key value k := by
  unfold regSetdefaultAppend
  by_cases hk : k = key
  · subst hk; simp [hx]
  · simp [hk, hx]

theorem listenLoop_foldl_mem_mono (From : Q2QAddress) (value : ListenEntry) :
    ∀ (pre : List Str) (reg : ListenRegistry) (k : ListenKey)
      (x : ListenEntry), x ∈ reg k →
      x ∈ (pre.foldl (fun r p => regSetdefaultAppend r (From, p) value) reg) k := by
  intro pre
  induction pre with
  | nil => intro reg k x hx; simpa using hx
  | cons q rest ih =>
    intro reg k x hx
    exact ih _ k x (regSetdefaultAppend_mem_mono reg (From, q) value x k hx)

theorem listenLoop_stopsAtDot (From : Q2QAddress) (value : ListenEntry) :
    ∀ (pre : List Str) (bad : Str) (rest : List Str)
      (reg : ListenRegistry) (lc : List (ListenKey × ListenEntry)),
      (∀ p ∈ pre, startsWithDot p = false) → startsWithDot bad = true →
      listenLoop From value reg lc (pre ++ bad :: rest) =
        ((pre.foldl (fun r p => regSetdefaultAppend r (From, p) value) reg,
          lc ++ pre.map (fun p => ((From, p), value))),
         .error .verifyError) := by
  intro pre
  induction pre with
  | nil =>
    intro bad rest reg lc hpre hbad
    simp [listenLoop, hbad]
  | cons q qs ih =>
    intro bad rest reg lc hpre hbad
    have hq : startsWithDot q = false := hpre q (List.mem_cons_self q qs)
    have hqs : ∀ p ∈ qs, startsWithDot p = false :=
      fun p hp => hpre p (List.mem_cons_of_mem q hp)
    have hstep : listenLoop From value reg lc ((q :: qs) ++ bad :: rest) =
        listenLoop From value
          (regSetdefaultAppend reg (From, q) value)
          (lc ++ [((From, q), value)]) (qs ++ bad :: rest) := by
      simp [listenLoop, hq]
    rw [hstep, ih bad rest (regSetdefaultAppend reg (From, q) value)
      (lc ++ [((From, q), value)]) hqs hbad]
    simp

/-! ## Theorems for claim C10 -/

/-- Claim C10 (confirmed): when a LISTEN command carries protocol names
`pre ++ [bad] ++ rest` where the names in `pre` do not start with a dot
and `bad` does, and the certificate check passes, the command fails with
`VerifyError` on reaching `bad`, yet every protocol in `pre` has already
been registered — the pair is in the final `listeningClient` list and the
value is in the final service registry under `(From, protocol)` — and the
registrations remain in place: the failed LISTEN is not atomic. -/
theorem command_LISTEN_not_atomic :
    ∀ (authorized : Bool) (hostCertificate peerCert : Cert)
      (reg : ListenRegistry) (lc : List (ListenKey × ListenEntry))
      (token : Nat) (pre : List Str) (bad : Str) (rest : List Str)
      (From : Q2QAddress) (description : Str),
      verifyCertificateAllowed authorized hostCertificate peerCert From From =
        true →
      (∀ p ∈ pre, startsWithDot p = false) →
      startsWithDot bad = true →
      (command_LISTEN authorized hostCertificate peerCert reg lc token
          (pre ++ bad :: rest) From description).2 = .error .verifyError ∧
      (∀ p ∈ pre,
        { owner := token, cert := peerCert, desc := description } ∈
          (command_LISTEN authorized hostCertificate peerCert reg lc token
            (pre ++ bad :: rest) From description).1.1 (From, p) ∧
        ((From, p),
         ({ owner := token, cert := peerCert,
            desc := description } : ListenEntry)) ∈
          (command_LISTEN authorized hostCertificate peerCert reg lc token
            (pre ++ bad :: rest) From description).1.2) := by
  intro authorized hostCertificate peerCert reg lc token pre bad rest From
    description hverify hpre hbad
  have hloop := listenLoop_stopsAtDot From
    { owner := token, cert := peerCert, desc := description }
    pre bad rest reg lc hpre hbad
  have hcmd : command_LISTEN authorized hostCertificate peerCert reg lc token
      (pre ++ bad :: rest) From description =
      ((pre.foldl
          (fun r p => regSetdefaultAppend r (From, p)
            { owner := token, cert := peerCert, desc := description }) reg,
        lc ++ pre.map (fun p => ((From, p),
          ({ owner := token, cert := peerCert,
             desc := description } : ListenEntry)))),
       .error .verifyError) := by
    unfold command_LISTEN
    rw [if_neg (by simp [hverify]), hloop]
  refine ⟨by rw [hcmd], ?_⟩
  intro p hp
  rw [hcmd]
  dsimp only
  constructor
  · -- membership in the service registry
    rcases List.append_of_mem hp with ⟨pre1, pre2, rfl⟩
    have hsplit : (pre1 ++ p :: pre2).foldl
        (fun r q => regSetdefaultAppend r (From, q)
          { owner := token, cert := peerCert, desc := description }) reg =
        pre2.foldl
          (fun r q => regSetdefaultAppend r (From, q)
            { owner := token, cert := peerCert, desc := description })
          (regSetdefaultAppend
            (pre1.foldl (fun r q => regSetdefaultAppend r (From, q)
              { owner := token, cert := peerCert, desc := description }) reg)
            (From, p)
            { owner := token, cert := peerCert, desc := description }) := by
      rw [List.foldl_append, List.foldl_cons]
    rw [hsplit]
    apply listenLoop_foldl_mem_mono
    unfold regSetdefaultAppend
    rw [if_pos rfl]
    simp
  · -- membership in the listeningClient list of the connection
    simp only [List.mem_append, List.mem_map]
    exact Or.inr ⟨p, hp, rfl⟩

/-- Witness for C10: `["echo", ".internal", "x"]` under a certificate pair
that passes verification: the command fails but `echo` stays registered in
both maps. -/
theorem command_LISTEN_not_atomic_witness :
    verifyCertificateAllowed true
        { issuerCN := "divmod.com".toList, subjectCN := "u@divmod.com".toList }
        { issuerCN := "divmod.com".toList, subjectCN := "u@divmod.com".toList }
        { domain := "divmod.com".toList, resource := some "u".toList }
        { domain := "divmod.com".toList, resource := some "u".toList } = true ∧
    (command_LISTEN true
        { issuerCN := "divmod.com".toList, subjectCN := "u@divmod.com".toList }
        { issuerCN := "divmod.com".toList, subjectCN := "u@divmod.com".toList }
        (fun _ => []) [] 7
        ["echo".toList, ".internal".toList, "x".toList]
        { domain := "divmod.com".toList, resource := some "u".toList }
        "desc".toList).2 = .error .verifyError ∧
    ((({ domain := "divmod.com".toList, resource := some "u".toList } :
          Q2QAddress), "echo".toList),
      ({ owner := 7,
         cert := { issuerCN := "divmod.com".toList,
                   subjectCN := "u@divmod.com".toList },
         desc := "desc".toList } : ListenEntry)) ∈
      (command_LISTEN true
        { issuerCN := "divmod.com".toList, subjectCN := "u@divmod.com".toList }
        { issuerCN := "divmod.com".toList, subjectCN := "u@divmod.com".toList }
        (fun _ => []) [] 7
        ["echo".toList, ".internal".toList, "x".toList]
        { domain := "divmod.com".toList, resource := some "u".toList }
        "desc".toList).1.2 := by
  have T := command_LISTEN_not_atomic true
    { issuerCN := "divmod.com".toList, subjectCN := "u@divmod.com".toList }
    { issuerCN := "divmod.com".toList, subjectCN := "u@divmod.com".toList }
    (fun _ => []) [] 7
    ["echo".toList] ".internal".toList ["x".toList]
    { domain := "divmod.com".toList, resource := some "u".toList }
    "desc".toList (by decide) (by decide) (by decide)
  exact ⟨by decide, T.1,
    (T.2 "echo".toList (List.mem_singleton_self _)).2⟩

/-! ## Inbound reservations, expiry timers and VIRTUAL (claim C7)

`Q2QService.mapListener` stores a `_ConnectionWaiter` in
`inboundConnections` together with the `DelayedCall` scheduled by
`reactor.callLater(120, self.inboundConnections.pop, listenerID, None)`.
The reactor is modelled by a table of pending delayed calls; firing a
call runs the scheduled `pop`, and `call.cancel()` removes it from the
table. -/

/-- `_ConnectionWaiter`: the server-side reservation record. -/
structure _ConnectionWaiter where
  From : Q2QAddress
  «to» : Q2QAddress
  protocolName : Str
  protocolFactory : Nat
  isClient : Bool
  deriving DecidableEq, Repr

/-- The reservation-related state of a `Q2QService`, together with the
pending delayed calls the reactor holds for it. -/
structure SvcReservations where
  lastConnID : Nat
  inboundConnections : List (Str × (_ConnectionWaiter × Nat))
  pendingCalls : List (Nat × (Nat × Str))
  nextCallID : Nat
  deriving DecidableEq, Repr

/-- `Q2QService._nextConnectionID(From, to)`: the channel id
`"{From}->{to}:{lastConnID}"`. -/
def _nextConnectionID (From «to» : Q2QAddress) (lastConnID : Nat) : Str :=
  addrToString From ++ "->".toList ++ addrToString «to» ++ ":".toList ++
    Nat.toDigits 10 lastConnID

/-- `Q2QService.mapListener(to, From, protocolName, protocolFactory,
isClient)` at time `now`: allocate the next channel id, schedule the
120-second expiry call that pops the reservation, store the waiter with
its call, and return `(expires, listenerID)` with the new state. -/
def mapListener (s : SvcReservations) (now : Nat) («to» From : Q2QAddress)
    (protocolName : Str) (protocolFactory : Nat) (isClient : Bool) :
    (Nat × Str) × SvcReservations :=
  let listenerID := _nextConnectionID From «to» s.lastConnID
  let expires := now + 120
  ((expires, listenerID),
   { lastConnID := s.lastConnID + 1,
     inboundConnections := dictSet s.inboundConnections listenerID
       ({ From := From, «to» := «to», protocolName := protocolName, protocolFactory := protocolFactory, isClient := isClient }, s.nextCallID),
     pendingCalls := dictSet s.pendingCalls s.nextCallID (expires, listenerID),
     nextCallID := s.nextCallID + 1 })

/-- The reactor firing a delayed call: if it is still pending, it runs
`self.inboundConnections.pop(listenerID, None)` — removing the
reservation if it is still there — and leaves the pending set. -/
def reactorFire (s : SvcReservations) (callID : Nat) : SvcReservations :=
  match dictGet s.pendingCalls callID with
  | none => s
  | some (_, listenerID) =>
    { s with
      pendingCalls := dictDel s.pendingCalls callID,
      inboundConnections := dictDel s.inboundConnections listenerID }

/-- `Q2Q.command_VIRTUAL(id)`: `self.service.inboundConnections.pop(id)`
raises `KeyError` when the reservation is gone; otherwise the reservation
is removed, its expiry call is cancelled (`call.cancel()`), and the
waiter is used to build the server-side `VirtualTransport`. -/
def command_VIRTUAL (s : SvcReservations) (id : Str) :
    Except PyErr (SvcReservations × _ConnectionWaiter) :=
  match dictGet s.inboundConnections id with
  | none => .error .keyError
  | some (cwait, callID) =>
    .ok ({ s with
           inboundConnections := dictDel s.inboundConnections id,
           pendingCalls := dictDel s.pendingCalls callID },
         cwait)

/-! ## Theorems for claim C7 -/

/-- Claim C7 (confirmed): `mapListener` stores the reservation together
with a timer expiring 120 seconds from now whose firing removes exactly
that reservation; a VIRTUAL for a still-reserved id removes the
reservation and cancels its expiry call; and a VIRTUAL arriving after the
timer fired finds no reservation and fails with `KeyError`. -/
theorem mapListener_virtual_expiry :
    ∀ (s : SvcReservations) (now : Nat) («to» From : Q2QAddress)
      (protocolName : Str) (protocolFactory : Nat) (isClient : Bool),
      (mapListener s now «to» From protocolName protocolFactory isClient).1.1 =
        now + 120 ∧
      dictGet (mapListener s now «to» From protocolName protocolFactory
          isClient).2.inboundConnections
        (mapListener s now «to» From protocolName protocolFactory isClient).1.2 =
        some ({ From := From, «to» := «to», protocolName := protocolName, protocolFactory := protocolFactory, isClient := isClient },
          s.nextCallID) ∧
      dictGet (mapListener s now «to» From protocolName protocolFactory
          isClient).2.pendingCalls s.nextCallID =
        some (now + 120,
          (mapListener s now «to» From protocolName protocolFactory
            isClient).1.2) ∧
      dictGet (reactorFire (mapListener s now «to» From protocolName
            protocolFactory isClient).2 s.nextCallID).inboundConnections
        (mapListener s now «to» From protocolName protocolFactory isClient).1.2 =
        none ∧
      command_VIRTUAL
        (reactorFire (mapListener s now «to» From protocolName protocolFactory
          isClient).2 s.nextCallID)
        (mapListener s now «to» From protocolName protocolFactory isClient).1.2 =
        .error .keyError ∧
      (∀ (s2 : SvcReservations) (id : Str) (w : _ConnectionWaiter)
         (callID : Nat),
        dictGet s2.inboundConnections id = some (w, callID) →
        ∃ s3, command_VIRTUAL s2 id = .ok (s3, w) ∧
          dictGet s3.inboundConnections id = none ∧
          dictGet s3.pendingCalls callID = none) := by
  intro s now «to» From protocolName protocolFactory isClient
  have hres : dictGet (mapListener s now «to» From protocolName protocolFactory
      isClient).2.inboundConnections
      (mapListener s now «to» From protocolName protocolFactory isClient).1.2 =
      some ({ From := From, «to» := «to», protocolName := protocolName, protocolFactory := protocolFactory, isClient := isClient },
        s.nextCallID) := by
    simp [mapListener, dictGet_set_self]
  have hcall : dictGet (mapListener s now «to» From protocolName
      protocolFactory isClient).2.pendingCalls s.nextCallID =
      some (now + 120,
        (mapListener s now «to» From protocolName protocolFactory
          isClient).1.2) := by
    simp [mapListener, dictGet_set_self]
  have hfire : dictGet (reactorFire (mapListener s now «to» From protocolName
        protocolFactory isClient).2 s.nextCallID).inboundConnections
      (mapListener s now «to» From protocolName protocolFactory isClient).1.2 =
      none := by
    unfold reactorFire
    rw [hcall]
    simp [dictGet_del_self]
  refine ⟨rfl, hres, hcall, hfire, ?_, ?_⟩
  · unfold command_VIRTUAL
    rw [hfire]
  · intro s2 id w callID hget
    refine ⟨{ s2 with
              inboundConnections := dictDel s2.inboundConnections id,
              pendingCalls := dictDel s2.pendingCalls callID }, ?_, ?_, ?_⟩
    · unfold command_VIRTUAL
      rw [hget]
    · simp [dictGet_del_self]
    · simp [dictGet_del_self]

/-- Witness for C7: a concrete reservation is claimed by VIRTUAL, after
which it is gone from the table and its expiry call from the reactor. -/
theorem mapListener_virtual_expiry_witness :
    dictGet ({ lastConnID := 2,
               inboundConnections :=
                 [("u@d->d:1".toList,
                   ({ From := { domain := "d".toList,
                                 resource := some "u".toList },
                      «to» := { domain := "d".toList },
                      protocolName := "echo".toList,
                      protocolFactory := 4, isClient := false }, 9))],
               pendingCalls := [(9, (120, "u@d->d:1".toList))],
               nextCallID := 10 } : SvcReservations).inboundConnections
        "u@d->d:1".toList =
      some ({ From := { domain := "d".toList, resource := some "u".toList },
              «to» := { domain := "d".toList },
              protocolName := "echo".toList,
              protocolFactory := 4, isClient := false }, 9) ∧
    ∃ s3, command_VIRTUAL
        { lastConnID := 2,
          inboundConnections :=
            [("u@d->d:1".toList,
              ({ From := { domain := "d".toList,
                           resource := some "u".toList },
                 «to» := { domain := "d".toList },
                 protocolName := "echo".toList,
                 protocolFactory := 4, isClient := false }, 9))],
          pendingCalls := [(9, (120, "u@d->d:1".toList))],
          nextCallID := 10 } "u@d->d:1".toList =
        .ok (s3, { From := { domain := "d".toList,
                             resource := some "u".toList },
                   «to» := { domain := "d".toList },
                   protocolName := "echo".toList,
                   protocolFactory := 4, isClient := false }) ∧
      dictGet s3.inboundConnections "u@d->d:1".toList = none ∧
      dictGet s3.pendingCalls 9 = none :=
  ⟨by decide,
   (mapListener_virtual_expiry
      { lastConnID := 0, inboundConnections := [], pendingCalls := [],
        nextCallID := 0 } 0 { domain := "d".toList }
      { domain := "d".toList } "echo".toList 0 false).2.2.2.2.2
     { lastConnID := 2,
       inboundConnections :=
         [("u@d->d:1".toList,
           ({ From := { domain := "d".toList,
                        resource := some "u".toList },
              «to» := { domain := "d".toList },
              protocolName := "echo".toList,
              protocolFactory := 4, isClient := false }, 9))],
       pendingCalls := [(9, (120, "u@d->d:1".toList))],
       nextCallID := 10 } "u@d->d:1".toList
     { From := { domain := "d".toList, resource := some "u".toList },
       «to» := { domain := "d".toList }, protocolName := "echo".toList,
       protocolFactory := 4, isClient := false } 9 (by decide)⟩

/-! ## `command_SIGN` (claim C8)

The certificate store is `DefaultCertificateStore`: `localStore` maps
subject names to private certificates, `users` maps `(domain, user)` to
shared secrets.  `genSerial` derives a serial number from the MD5 digest
of the domain name; MD5 is an external library, modelled as an
abstract function held by the store. -/

/-- A certificate signing request: its subject distinguished name as a
list of `(field, value)` pairs (a real DN cannot repeat a field). -/
structure CertificateRequest where
  subject : List (Str × Str)
  deriving DecidableEq, Repr

/-- `subj.keys()`. -/
def dnKeys (subject : List (Str × Str)) : List Str :=
  subject.map (fun kv => kv.1)

/-- `subj.commonName`: the value of the CN field (the code reads it only
after checking that CN is the sole field). -/
def dnCommonName (subject : List (Str × Str)) : Str :=
  ((subject.find? (fun kv => kv.1 = "CN".toList)).map (fun kv => kv.2)).getD []

/-- The certificate store as `command_SIGN` uses it. -/
structure CertStore where
  localStore : List (Str × Cert)
  users : List ((Str × Str) × Str)
  genSerial : Str → Nat

/-- `ourCert.signRequestObject(certificate_request, serial)`: a
certificate whose issuer is the subject of the signing certificate and
whose subject is the subject of the request, with the generated serial. -/
def signRequestObject (ourCert : Cert) (certificate_request : CertificateRequest)
    (serial : Nat) : Cert :=
  { issuerCN := ourCert.subjectCN,
    subjectCN := dnCommonName certificate_request.subject,
    serial := serial }

/-- `Q2Q.command_SIGN(certificate_request, password)`:
reject a subject whose fields are not exactly a single CN with
`BadCertificateRequest`; unpack `username, domain = commonName.split("@")`
(an unhandled `ValueError` unless the split yields exactly two parts);
look up the private certificate of the domain (`KeyError`, reported as
NoSuchUser, when absent); check the secret of the user (`checkUser` fails with
`KeyError`, reported as NoSuchUser, when the stored secret differs); then
sign the request with the domain certificate and a generated serial. -/
def command_SIGN (store : CertStore) (certificate_request : CertificateRequest)
    (password : Str) : Except PyErr Cert :=
  let subj := certificate_request.subject
  if ¬(dnKeys subj = ["CN".toList]) then .error .badCertificateRequest
  else
    match pySplitAll '@' (dnCommonName subj) with
    | [username, domain] =>
      match dictGet store.localStore domain with
      | none => .error .keyError
      | some ourCert =>
        if ¬(dictGet store.users (domain, username) = some password) then
          .error .keyError
        else
          .ok (signRequestObject ourCert certificate_request
            (store.genSerial domain))
    | _ => .error .valueError

/-- The malformed-subject condition as the claim states it: the subject
does not consist of exactly a CN field whose value has the form
`user@domain`. -/
def claimSubjectMalformed (certificate_request : CertificateRequest) : Bool :=
  ¬(dnKeys certificate_request.subject = ["CN".toList] &&
    (pySplitAll '@' (dnCommonName certificate_request.subject)).length = 2)

/-! ## Theorems for claim C8 -/

/-- Claim C8, counterexample: a CSR whose subject is exactly a CN with
value `nodomain` (no `@`) is malformed in the sense of the claim, so the
claim requires `BadCertificateRequest`; the code instead fails with an
unhandled `ValueError` from unpacking the one-element result of
`split("@")`. -/
theorem command_SIGN_claim_counterexample :
    claimSubjectMalformed
      { subject := [("CN".toList, "nodomain".toList)] } = true ∧
    command_SIGN
      { localStore := [("d".toList,
          { issuerCN := "d".toList, subjectCN := "d".toList })],
        users := [(("d".toList, "u".toList), "pw".toList)],
        genSerial := fun _ => 1 }
      { subject := [("CN".toList, "nodomain".toList)] } "pw".toList =
      .error .valueError ∧
    (PyErr.valueError ≠ PyErr.badCertificateRequest) := by
  refine ⟨by decide, by decide, by decide⟩

/-- Claim C8 (corrected): the SIGN command fails with
`BadCertificateRequest` exactly when the subject fields are not exactly
a single CN; when the fields are exactly CN but the CN value does not split
on `@` into exactly two parts it fails with an unhandled `ValueError`
(not `BadCertificateRequest`, amending the claim); it fails with
`KeyError` (wire error NoSuchUser) when the domain has no private
certificate in the store — an additional failure the claim folds into
"otherwise" — or when the stored secret for `(domain, user)` differs from
the password; otherwise it returns the request signed by the private
certificate of the domain with the generated serial. -/
theorem command_SIGN_amended :
    ∀ (store : CertStore) (certificate_request : CertificateRequest)
      (password : Str),
      (command_SIGN store certificate_request password =
          .error .badCertificateRequest ↔
        ¬(dnKeys certificate_request.subject = ["CN".toList])) ∧
      (dnKeys certificate_request.subject = ["CN".toList] →
        (pySplitAll '@' (dnCommonName certificate_request.subject)).length ≠ 2 →
        command_SIGN store certificate_request password = .error .valueError) ∧
      (∀ username domain,
        dnKeys certificate_request.subject = ["CN".toList] →
        pySplitAll '@' (dnCommonName certificate_request.subject) =
          [username, domain] →
        (dictGet store.localStore domain = none →
          command_SIGN store certificate_request password = .error .keyError) ∧
        (∀ ourCert, dictGet store.localStore domain = some ourCert →
          (¬(dictGet store.users (domain, username) = some password) →
            command_SIGN store certificate_request password =
              .error .keyError) ∧
          (dictGet store.users (domain, username) = some password →
            command_SIGN store certificate_request password =
              .ok (signRequestObject ourCert certificate_request
                (store.genSerial domain))))) := by
  intro store certificate_request password
  refine ⟨?_, ?_, ?_⟩
  · constructor
    · intro hres hkeys
      unfold command_SIGN at hres
      rw [if_neg (not_not_intro hkeys)] at hres
      rcases hsplit : pySplitAll '@' (dnCommonName certificate_request.subject)
        with _ | ⟨u, _ | ⟨d, _ | _⟩⟩ <;> rw [hsplit] at hres <;>
        dsimp only at hres
      · cases hres
      · cases hres
      · cases hcert : dictGet store.localStore d <;> rw [hcert] at hres <;>
          dsimp only at hres
        · cases hres
        · by_cases hpw : dictGet store.users (d, u) = some password
          · rw [if_neg (not_not_intro hpw)] at hres
            cases hres
          · rw [if_pos hpw] at hres
            cases hres
      · cases hres
    · intro hkeys
      unfold command_SIGN
      rw [if_pos hkeys]
  · intro hkeys hlen
    unfold command_SIGN
    rw [if_neg (not_not_intro hkeys)]
    rcases hsplit : pySplitAll '@' (dnCommonName certificate_request.subject)
      with _ | ⟨u, _ | ⟨d, _ | _⟩⟩ <;> simp_all
  · intro username domain hkeys hsplit
    refine ⟨?_, ?_⟩
    · intro hcert
      unfold command_SIGN
      rw [if_neg (not_not_intro hkeys), hsplit]
      dsimp only
      rw [hcert]
    · intro ourCert hcert
      refine ⟨?_, ?_⟩
      · intro hpw
        unfold command_SIGN
        rw [if_neg (not_not_intro hkeys), hsplit]
        dsimp only
        rw [hcert]
        dsimp only
        rw [if_pos hpw]
      · intro hpw
        unfold command_SIGN
        rw [if_neg (not_not_intro hkeys), hsplit]
        dsimp only
        rw [hcert]
        dsimp only
        rw [if_neg (not_not_intro hpw)]

/-- Witness for C8: a well-formed request for `u@d` with the right secret
yields the certificate signed by the stored domain certificate. -/
theorem command_SIGN_amended_witness :
    command_SIGN
      { localStore := [("d".toList,
          { issuerCN := "d".toList, subjectCN := "d".toList })],
        users := [(("d".toList, "u".toList), "pw".toList)],
        genSerial := fun _ => 1 }
      { subject := [("CN".toList, "u@d".toList)] } "pw".toList =
      .ok { issuerCN := "d".toList, subjectCN := "u@d".toList, serial := 1 } :=
  ((((command_SIGN_amended
      { localStore := [("d".toList,
          { issuerCN := "d".toList, subjectCN := "d".toList })],
        users := [(("d".toList, "u".toList), "pw".toList)],
        genSerial := fun _ => 1 }
      { subject := [("CN".toList, "u@d".toList)] } "pw".toList).2.2
      "u".toList "d".toList (by decide) (by decide)).2
      { issuerCN := "d".toList, subjectCN := "d".toList } rfl).2 rfl)

/-! ## `juice_WRITE` (claim C9) -/

/-- A Juice frame carrying a WRITE command: the channel id header and the
body bytes. -/
structure WriteBox where
  id : Str
  body : Str
  deriving DecidableEq, Repr

/-- `Q2Q.juice_WRITE(box)`: look up the channel under the id header (a
`KeyError` escapes when the id is not registered), deliver the body via
`dataReceived` on that channel, and answer with an empty box.  The result
carries the empty-acknowledgement headers and the deliveries made. -/
def juice_WRITE (connections : ConnMap) (box : WriteBox) :
    Except PyErr (List (Str × Str) × List (Nat × Str)) :=
  match dictGet connections box.id with
  | none => .error .keyError
  | some connection => .ok ([], [(connection, box.body)])

/-! ## Theorems for claim C9 -/

/-- Claim C9, counterexample: a WRITE whose id is not a registered virtual
channel raises `KeyError`; the claim, following the command table, says
WRITE has no error outcome for any id. -/
theorem juice_WRITE_claim_counterexample :
    juice_WRITE [] { id := "nope".toList, body := "HELLO WORLD".toList } =
      .error .keyError := by
  decide

/-- Claim C9 (corrected): for a WRITE command whose channel id is
registered in the `connections` map of the connection, the body bytes are
delivered via `dataReceived` to that channel and an empty acknowledgement
is returned; for an unregistered id the lookup raises `KeyError`,
amending the claimed "no error outcomes, for any id". -/
theorem juice_WRITE_amended :
    ∀ (connections : ConnMap) (box : WriteBox),
      (∀ chan, dictGet connections box.id = some chan →
        juice_WRITE connections box = .ok ([], [(chan, box.body)])) ∧
      (dictGet connections box.id = none →
        juice_WRITE connections box = .error .keyError) := by
  intro connections box
  constructor
  · intro chan hchan
    unfold juice_WRITE
    rw [hchan]
  · intro hnone
    unfold juice_WRITE
    rw [hnone]

/-- Witness for C9: a registered channel receives the body and the empty
acknowledgement is returned. -/
theorem juice_WRITE_amended_witness :
    juice_WRITE [("a->b:1".toList, 3)]
      { id := "a->b:1".toList, body := "HELLO WORLD".toList } =
      .ok ([], [(3, "HELLO WORLD".toList)]) :=
  (juice_WRITE_amended [("a->b:1".toList, 3)]
    { id := "a->b:1".toList, body := "HELLO WORLD".toList }).1 3 (by decide)

end Vertex
